import Mathlib

/-!
Verification of the FastLED-idf ESP32 RMT clockless driver
(`src/components/FastLED-idf/platforms/esp/32/clockless_rmt_esp32.h`).

The development shallowly embeds the custom-driver path of the file:
the global channel scheduler (`showPixels`, `startNext`, `startOnChannel`,
`doneOnChannel`), the interrupt dispatcher (`interruptHandler`), the
per-strip refill engine (`fillNext`) and the waveform encoder (`init`).
Machine integers are modelled as `Nat` with explicit `% 2 ^ 32` where the
C code relies on 32-bit wraparound.  Hardware side effects (RMT memory
writes, interrupt acknowledges, semaphore operations, transmission
starts) are recorded in explicit event logs so that theorems can speak
about what a call performs.
-/

namespace FastLEDRMT

/-! ### Configuration constants (lines 127-167 of the source) -/

def DIVIDER : Nat := 2

def MAX_PULSES : Nat := 64

def PULSES_PER_FILL : Nat := 24

def F_CPU_RMT : Nat := 80000000

/-- `RMT_CYCLES_PER_SEC = F_CPU_RMT / DIVIDER` (line 134). -/
def RMT_CYCLES_PER_SEC : Nat := F_CPU_RMT / DIVIDER

/-- `RMT_CYCLES_PER_ESP_CYCLE = F_CPU / RMT_CYCLES_PER_SEC` (line 135);
`F_CPU` is the build-configured CPU frequency, kept as a parameter. -/
def RMT_CYCLES_PER_ESP_CYCLE (fcpu : Nat) : Nat := fcpu / RMT_CYCLES_PER_SEC

/-- `ESP_TO_RMT_CYCLES(n) = n / RMT_CYCLES_PER_ESP_CYCLE` (line 136);
C integer division on non-negative operands truncates, i.e. `Nat` division. -/
def ESP_TO_RMT_CYCLES (fcpu n : Nat) : Nat := n / RMT_CYCLES_PER_ESP_CYCLE fcpu

def FASTLED_RMT_MAX_CONTROLLERS : Nat := 32

def FASTLED_RMT_MAX_CHANNELS : Nat := 8

/-- `BIT(n)` from the SDK headers. -/
def BIT (n : Nat) : Nat := 2 ^ n

/-! ### Observable events

Each scheduler / ISR operation appends the hardware-visible actions it
performs to an event log:
* `clearBit b`   — `RMT.int_clr.val |= BIT(b)`;
* `refill ch c`  — the ISR calls `fillNext` on controller `c`, occupant of channel `ch`;
* `done ch`      — `doneOnChannel` housekeeping runs for channel `ch` (pin released, occupant cleared, `gNumDone` bumped);
* `assign ch c`  — `startOnChannel`: controller `c` is bound to channel `ch`;
* `primeFill c`  — one priming `fillNext` call inside `startOnChannel`;
* `txStart ch`   — `rmt_tx_start` issued on channel `ch`;
* `semGive`      — `xSemaphoreGive(FromISR)` on `gTX_sem`;
* `semTake`      — `xSemaphoreTake` on `gTX_sem`. -/
inductive Ev where
  | clearBit (bit : Nat)
  | refill (ch ctrl : Nat)
  | done (ch : Nat)
  | assign (ch ctrl : Nat)
  | primeFill (ctrl : Nat)
  | txStart (ch : Nat)
  | semGive
  | semTake
  deriving DecidableEq, Repr

/-! ### Global scheduler state (lines 170-187) -/

/-- The process-wide scheduler state.  Controllers are referred to by
their index in the registration order (their slot in `gControllers`).
`semGives` instruments how many times the ISR path has opened the cycle
barrier (`xSemaphoreGiveFromISR`). -/
structure SchedState where
  /-- `gNumControllers` -/
  numControllers : Nat
  /-- `gNumStarted` -/
  numStarted : Nat
  /-- `gNumDone` -/
  numDone : Nat
  /-- `gNext` -/
  next : Nat
  /-- `gOnChannel[ch]`: index of the occupying controller, `none` for `NULL` -/
  onChannel : Nat → Option Nat
  /-- per-controller `mRMT_channel` field -/
  rmtChannelOf : Nat → Nat
  /-- whether `gTX_sem` is currently available ("given") -/
  semOpen : Bool
  /-- number of `xSemaphoreGiveFromISR(gTX_sem)` calls performed -/
  semGives : Nat
  /-- log of hardware-visible actions -/
  events : List Ev

/-- `startOnChannel` (lines 419-451, custom-driver branch): set
`mRMT_channel := ch`, record the occupant, then perform the two priming
`fillNext` calls before interrupts are enabled. -/
def startOnChannel (ctrl ch : Nat) (s : SchedState) : SchedState :=
  { s with
    rmtChannelOf := fun c => if c = ctrl then ch else s.rmtChannelOf c,
    onChannel := fun c => if c = ch then some ctrl else s.onChannel c,
    events := s.events ++ [Ev.assign ch ctrl, Ev.primeFill ctrl, Ev.primeFill ctrl] }

/-- `startNext` (lines 407-414): if a controller is still pending, bind
`gControllers[gNext]` to `channel` and advance `gNext`. -/
def startNext (ch : Nat) (s : SchedState) : SchedState :=
  if s.next < s.numControllers then
    let s1 := startOnChannel s.next ch s
    { s1 with next := s1.next + 1 }
  else s

/-- `doneOnChannel` (lines 459-484): release the pin, clear the channel's
occupant, bump `gNumDone`; if every controller is done give the cycle
semaphore, otherwise hand the freed channel to the next pending
controller and start it. -/
def doneOnChannel (ch : Nat) (s : SchedState) : SchedState :=
  let s1 : SchedState :=
    { s with
      onChannel := fun c => if c = ch then none else s.onChannel c,
      numDone := s.numDone + 1,
      events := s.events ++ [Ev.done ch] }
  if s1.numDone = s1.numControllers then
    { s1 with semOpen := true, semGives := s1.semGives + 1,
              events := s1.events ++ [Ev.semGive] }
  else if s1.next < s1.numControllers then
    let s2 := startNext ch s1
    { s2 with events := s2.events ++ [Ev.txStart ch] }
  else s1

/-- A sequence of completion events delivered to `doneOnChannel`
(the per-cycle trace of channel-done interrupts). -/
def runDones (l : List Nat) (s : SchedState) : SchedState :=
  l.foldl (fun s ch => doneOnChannel ch s) s

/-! ### Interrupt dispatcher (lines 490-520) -/

/-- Body of the dispatch loop of `interruptHandler` for one channel:
`tx_done_bit = channel * 3`, `tx_next_bit = channel + 24`; a channel with
no occupant is skipped entirely; otherwise the threshold bit is checked
first and, only in its absence (`else`), the completion bit. -/
def interruptChannelStep (intrSt ch : Nat) (s : SchedState) : SchedState :=
  match s.onChannel ch with
  | none => s
  | some ctrl =>
    if intrSt.testBit (ch + 24) then
      { s with events := s.events ++ [Ev.clearBit (ch + 24), Ev.refill ch ctrl] }
    else if intrSt.testBit (ch * 3) then
      let s1 : SchedState := { s with events := s.events ++ [Ev.clearBit (ch * 3)] }
      doneOnChannel ch s1
    else s

/-- `interruptHandler`: reads `RMT.int_st.val` once (`intrSt`) and loops
over channels `0 .. FASTLED_RMT_MAX_CHANNELS - 1` in order. -/
def interruptHandler (intrSt : Nat) (s : SchedState) : SchedState :=
  (List.range FASTLED_RMT_MAX_CHANNELS).foldl
    (fun s ch => interruptChannelStep intrSt ch s) s

/-! ### Show-cycle entry point (lines 304-357, custom-driver branch) -/

/-- The `while (channel < FASTLED_RMT_MAX_CHANNELS && gNext <
gNumControllers)` loop of `showPixels`, with `fuel = 8 - channel`;
returns the final state together with the final value of the local
`channel` counter. -/
def fillLoop : Nat → Nat → SchedState → SchedState × Nat
  | 0, ch, s => (s, ch)
  | fuel + 1, ch, s =>
    if ch < FASTLED_RMT_MAX_CHANNELS ∧ s.next < s.numControllers then
      fillLoop fuel (ch + 1) (startNext ch s)
    else (s, ch)

/-- The `for (int i = 0; i < channel; i++) rmt_tx_start(...)` loop of
`showPixels`:  starts `gControllers[i]->mRMT_channel` for `i < k`, in
ascending `i`. -/
def txStartLoop (k : Nat) (s : SchedState) : SchedState :=
  { s with events := s.events ++ (List.range k).map (fun i => Ev.txStart (s.rmtChannelOf i)) }

/-- The cycle-start block of the last `showPixels` caller (lines
330-349): reset `gNext`, fill the available channels via the
`startNext` loop, issue `rmt_tx_start` for each filled channel in
ascending order, then block on `gTX_sem`. -/
def showCycleStart (s1 : SchedState) : SchedState :=
  let s2 : SchedState := { s1 with next := 0 }
  let p := fillLoop 8 0 s2
  let s3 := txStartLoop p.2 p.1
  { s3 with events := s3.events ++ [Ev.semTake] }

/-- One call to `showPixels` by some controller, up to (and including)
the point where the last caller blocks on `gTX_sem` (line 349).  The
first caller of a cycle takes the semaphore (closing the barrier); every
caller bumps `gNumStarted`; the last caller runs the cycle start and
then blocks. -/
def showPixelsStep (s : SchedState) : SchedState :=
  let s0 : SchedState :=
    if s.numStarted = 0 then
      { s with semOpen := false, events := s.events ++ [Ev.semTake] }
    else s
  let s1 : SchedState := { s0 with numStarted := s0.numStarted + 1 }
  if s1.numStarted = s1.numControllers then showCycleStart s1 else s1

/-- The tail of the last caller's `showPixels` after its blocking
`xSemaphoreTake` succeeds (lines 349-355): the take-then-give pair
leaves the semaphore given, and the three cycle counters are reset to
zero.  Callable only once the ISR has opened the barrier
(`semOpen = true`), which theorems state as a hypothesis. -/
def showPixelsFinish (s : SchedState) : SchedState :=
  { s with numStarted := 0, numDone := 0, next := 0,
           events := s.events ++ [Ev.semTake, Ev.semGive] }

/-! ### Waveform encoder and per-strip state (lines 189-244, 524-572) -/

/-- `rmt_item32_t`: two (level, duration) segments. -/
structure RmtItem where
  level0 : Nat
  duration0 : Nat
  level1 : Nat
  duration1 : Nat
  deriving DecidableEq, Repr

/-- The packed 32-bit `.val` view of an `rmt_item32_t`
(duration0: bits 0-14, level0: bit 15, duration1: bits 16-30, level1: bit 31). -/
def RmtItem.word (it : RmtItem) : Nat :=
  it.duration0 % 2 ^ 15 + it.level0 % 2 * 2 ^ 15 +
    it.duration1 % 2 ^ 15 * 2 ^ 16 + it.level1 % 2 * 2 ^ 31

/-- The waveform encoder of `init` (lines 227-231): the logic-one item.
`T1H = T1 + T2`, `T1L = T3`, both converted by `ESP_TO_RMT_CYCLES`.
The `duration0`/`duration1` members of `rmt_item32_t` are 15-bit
unsigned bitfields, so the C assignments store the converted values
modulo `2 ^ 15`. -/
def encodeOne (fcpu T1 T2 T3 : Nat) : RmtItem :=
  { level0 := 1, duration0 := ESP_TO_RMT_CYCLES fcpu (T1 + T2) % 2 ^ 15,
    level1 := 0, duration1 := ESP_TO_RMT_CYCLES fcpu T3 % 2 ^ 15 }

/-- The waveform encoder of `init` (lines 234-238): the logic-zero item.
`T0H = T1`, `T0L = T2 + T3`, both converted by `ESP_TO_RMT_CYCLES` and
stored into the 15-bit duration bitfields (modulo `2 ^ 15`). -/
def encodeZero (fcpu T1 T2 T3 : Nat) : RmtItem :=
  { level0 := 1, duration0 := ESP_TO_RMT_CYCLES fcpu T1 % 2 ^ 15,
    level1 := 0, duration1 := ESP_TO_RMT_CYCLES fcpu (T2 + T3) % 2 ^ 15 }

/-- Per-controller state relevant to the refill engine.  `pixels` models
the external `PixelController` as the list of remaining pixels, each a
triple of already-scaled color bytes in output order
(`loadAndScale0/1/2`); `memOff` is `mRMT_mem_ptr` as an offset in slots
from `&RMTMEM.chan[ch].data32[0]`; `writes` logs every RMT-memory write
as an (offset, 32-bit value) pair. -/
structure CtrlState where
  pixels : List (Nat × Nat × Nat)
  /-- `mCurPulse` -/
  curPulse : Nat
  /-- `mRMT_mem_ptr`, as a slot offset from the channel buffer base -/
  memOff : Nat
  /-- `mOne` -/
  mOne : RmtItem
  /-- `mZero` -/
  mZero : RmtItem
  /-- log of RMT memory writes (slot offset, value) -/
  writes : List (Nat × Nat)

/-- Controller construction: `init` (lines 218-244) precomputes `mOne`
and `mZero` once; `startOnChannel` (lines 440-441) sets
`mRMT_mem_ptr` to the buffer base and `mCurPulse := 0`. -/
def ctrlInit (fcpu T1 T2 T3 : Nat) (pixels : List (Nat × Nat × Nat)) : CtrlState :=
  { pixels := pixels, curPulse := 0, memOff := 0,
    mOne := encodeOne fcpu T1 T2 T3, mZero := encodeZero fcpu T1 T2 T3,
    writes := [] }

/-- State of the 24-iteration loop of `fillNext` (lines 549-561): the
local copies `pixel`, `pItem` (as an offset) and `curPulse`, plus the
writes the loop has issued so far. -/
structure FillIter where
  pixel : Nat
  pItem : Nat
  curPulse : Nat
  out : List (Nat × Nat)

/-- One iteration of the `fillNext` loop body: write `one_val` or
`zero_val` according to bit 31 of `pixel`, advance the pointer, shift
`pixel` left (32-bit truncation), bump `curPulse` and wrap both pointer
and cursor when `curPulse` reaches `MAX_PULSES`. -/
def fillStep (oneW zeroW : Nat) (it : FillIter) : FillIter :=
  if it.curPulse + 1 = MAX_PULSES then
    { pixel := it.pixel <<< 1 % 2 ^ 32, pItem := 0, curPulse := 0,
      out := it.out ++ [(it.pItem, if it.pixel.testBit 31 then oneW else zeroW)] }
  else
    { pixel := it.pixel <<< 1 % 2 ^ 32, pItem := it.pItem + 1, curPulse := it.curPulse + 1,
      out := it.out ++ [(it.pItem, if it.pixel.testBit 31 then oneW else zeroW)] }

/-- `n` iterations of the `fillNext` loop. -/
def fillRun (oneW zeroW : Nat) : Nat → FillIter → FillIter
  | 0, it => it
  | n + 1, it => fillRun oneW zeroW n (fillStep oneW zeroW it)

/-- `fillNext` (lines 524-572).  With pixels remaining: pull one pixel
(three bytes), pack it as `byte0 << 24 | byte1 << 16 | byte2 << 8`, and
run the 24-slot loop; the cursor and pointer are stored back.  With the
source exhausted: write 8 zero slots through `mRMT_mem_ptr++` — note
that this branch advances only the raw pointer, never `mCurPulse`, and
performs no wraparound check. -/
def fillNext (c : CtrlState) : CtrlState :=
  match c.pixels with
  | (b0, b1, b2) :: rest =>
    let pix := b0 <<< 24 ||| b1 <<< 16 ||| b2 <<< 8
    let r := fillRun c.mOne.word c.mZero.word 24
      { pixel := pix, pItem := c.memOff, curPulse := c.curPulse, out := [] }
    { c with pixels := rest, curPulse := r.curPulse, memOff := r.pItem,
             writes := c.writes ++ r.out }
  | [] =>
    { c with writes := c.writes ++ (List.range 8).map (fun j => (c.memOff + j, 0)),
             memOff := c.memOff + 8 }

/-- The bit of the pixel `(b0, b1, b2)` encoded by slot `j` of the 24:
bytes in order `b0, b1, b2`, MSB-first within each byte. -/
def pixelBit (b0 b1 b2 j : Nat) : Bool :=
  if j < 8 then b0.testBit (7 - j)
  else if j < 16 then b1.testBit (15 - j)
  else b2.testBit (23 - j)

/-! ### Controller registration (lines 218-244, `init`) -/

/-- The global registration state: `gControllers` modelled as an
unbounded index-to-contents map (so that a write past
`FASTLED_RMT_MAX_CONTROLLERS` is representable), plus a log of the
indices written. -/
structure RegState where
  /-- `gNumControllers` -/
  numControllers : Nat
  /-- contents of `gControllers[i]` (and of whatever lies past its end) -/
  slots : Nat → Option Nat
  /-- indices of `gControllers` written so far -/
  writeLog : List Nat

/-- The registration step of `init` (lines 240-241):
`gControllers[gNumControllers] = this; gNumControllers++;` — performed
unconditionally, with no capacity check and no error path. -/
def registerController (id : Nat) (s : RegState) : RegState :=
  { numControllers := s.numControllers + 1,
    slots := fun i => if i = s.numControllers then some id else s.slots i,
    writeLog := s.writeLog ++ [s.numControllers] }

/-- The empty registry at program start. -/
def regInit : RegState :=
  { numControllers := 0, slots := fun _ => none, writeLog := [] }

/-- `n` controllers registering in sequence (controller `i` gets id `i`). -/
def registerMany : Nat → RegState
  | 0 => regInit
  | n + 1 => registerController n (registerMany n)

/-! ### Derived views of the event log -/

/-- The controller indices carried by `assign` events, in order: the
sequence in which controllers were bound to channels. -/
def assignsOf (es : List Ev) : List Nat :=
  es.filterMap (fun e => match e with | Ev.assign _ i => some i | _ => none)

/-- The events produced by `startOnChannel` when controller `i` is bound
to channel `i` (as happens in the cycle-start fill loop). -/
def primeEvents (i : Nat) : List Ev :=
  [Ev.assign i i, Ev.primeFill i, Ev.primeFill i]

/-- The events of the cycle-start fill loop for channels `0 .. m - 1`. -/
def fillEvents (m : Nat) : List Ev :=
  ((List.range m).map primeEvents).flatten

/-! ### Helper lemmas: the exhausted-source branch of `fillNext` -/

lemma fillNext_exhausted (c : CtrlState) (h : c.pixels = []) :
    fillNext c =
      { c with writes := c.writes ++ (List.range 8).map (fun j => (c.memOff + j, 0)),
               memOff := c.memOff + 8 } := by
  unfold fillNext
  rw [h]

lemma fillNext_pixel (c : CtrlState) (b0 b1 b2 : Nat) (rest : List (Nat × Nat × Nat))
    (h : c.pixels = (b0, b1, b2) :: rest) :
    fillNext c =
      { c with pixels := rest,
               curPulse := (fillRun c.mOne.word c.mZero.word 24
                 { pixel := b0 <<< 24 ||| b1 <<< 16 ||| b2 <<< 8, pItem := c.memOff,
                   curPulse := c.curPulse, out := [] }).curPulse,
               memOff := (fillRun c.mOne.word c.mZero.word 24
                 { pixel := b0 <<< 24 ||| b1 <<< 16 ||| b2 <<< 8, pItem := c.memOff,
                   curPulse := c.curPulse, out := [] }).pItem,
               writes := c.writes ++ (fillRun c.mOne.word c.mZero.word 24
                 { pixel := b0 <<< 24 ||| b1 <<< 16 ||| b2 <<< 8, pItem := c.memOff,
                   curPulse := c.curPulse, out := [] }).out } := by
  unfold fillNext
  rw [h]

/-- The refill engine never touches the two precomputed pulse
descriptors. -/
lemma fillNext_preserves_items (c : CtrlState) :
    (fillNext c).mOne = c.mOne ∧ (fillNext c).mZero = c.mZero := by
  rcases hp : c.pixels with _ | ⟨⟨b0, b1, b2⟩, rest⟩
  · rw [fillNext_exhausted c hp]
    exact ⟨rfl, rfl⟩
  · rw [fillNext_pixel c b0 b1 b2 rest hp]
    exact ⟨rfl, rfl⟩

/-- Iterating `fillNext` on an exhausted source: the pixel list and the
slot cursor `mCurPulse` never change, while the raw pointer `mRMT_mem_ptr`
advances by `8` per call and every write is a zero at the next raw
offset, with no reduction modulo `MAX_PULSES`. -/
lemma fillNext_iterate_exhausted (c : CtrlState) (h : c.pixels = []) (k : Nat) :
    (fillNext^[k] c).pixels = [] ∧
    (fillNext^[k] c).curPulse = c.curPulse ∧
    (fillNext^[k] c).memOff = c.memOff + 8 * k ∧
    (fillNext^[k] c).writes =
      c.writes ++ (List.range (8 * k)).map (fun j => (c.memOff + j, 0)) := by
  induction k with
  | zero => simp [h]
  | succ k ih =>
    obtain ⟨ih1, ih2, ih3, ih4⟩ := ih
    rw [Function.iterate_succ_apply', fillNext_exhausted _ ih1]
    refine ⟨ih1, ih2, ?_, ?_⟩
    · show (fillNext^[k] c).memOff + 8 = c.memOff + 8 * (k + 1)
      omega
    · show (fillNext^[k] c).writes ++ _ = _
      simp only [ih4, ih3]
      have h8 : 8 * (k + 1) = 8 * k + 8 := by ring
      rw [h8, List.range_add, List.map_append, List.map_map, List.append_assoc]
      have hfun : ((fun j => (c.memOff + j, (0 : Nat))) ∘ fun x => 8 * k + x) =
          fun j => (c.memOff + 8 * k + j, (0 : Nat)) := by
        funext j
        simp [Function.comp, Nat.add_assoc]
      rw [hfun]

/-! ### Helper lemmas: the 24-slot loop of `fillNext` -/

lemma shl_mod_shl (a n : Nat) : (a % 2 ^ 32) <<< n % 2 ^ 32 = a <<< n % 2 ^ 32 := by
  simp [Nat.shiftLeft_eq, Nat.mod_mul_mod]

lemma shl_shl_succ (a n : Nat) : (a <<< 1) <<< n = a <<< (n + 1) := by
  rw [Nat.shiftLeft_eq, Nat.shiftLeft_eq, Nat.shiftLeft_eq]
  ring

/-- Full characterization of `n ≤ 32` iterations of the `fillNext`
write loop started in sync (`pItem = curPulse`) inside the buffer:
the value written at step `j` is the one-descriptor or zero-descriptor
word according to bit `31 - j` of the packed pixel (MSB first), the
write lands at slot `(curPulse + j) % MAX_PULSES`, and afterwards both
cursor and pointer stand at `(curPulse + n) % MAX_PULSES`. -/
lemma fillRun_spec (oneW zeroW : Nat) (n : Nat) :
    ∀ it : FillIter, it.pixel < 2 ^ 32 → it.curPulse < MAX_PULSES →
      it.pItem = it.curPulse → n ≤ 32 →
      fillRun oneW zeroW n it =
        { pixel := it.pixel <<< n % 2 ^ 32,
          pItem := (it.curPulse + n) % MAX_PULSES,
          curPulse := (it.curPulse + n) % MAX_PULSES,
          out := it.out ++ (List.range n).map
            (fun j => ((it.curPulse + j) % MAX_PULSES,
                       if it.pixel.testBit (31 - j) then oneW else zeroW)) } := by
  induction n with
  | zero =>
    rintro ⟨pix, pit, cur, out⟩ hpix hcur hsync _
    dsimp only at hpix hcur hsync ⊢
    subst hsync
    simp [fillRun, Nat.mod_eq_of_lt hpix, Nat.mod_eq_of_lt hcur]
    omega
  | succ n ih =>
    rintro ⟨pix, pit, cur, out⟩ hpix hcur hsync hn
    dsimp only at hpix hcur hsync ⊢
    subst hsync
    show fillRun oneW zeroW n (fillStep oneW zeroW ⟨pix, pit, pit, out⟩) = _
    have hpix1 : pix <<< 1 % 2 ^ 32 < 2 ^ 32 := Nat.mod_lt _ (by norm_num)
    have hbit : ∀ j : Nat, j < n →
        (pix <<< 1 % 2 ^ 32).testBit (31 - j) = pix.testBit (31 - (j + 1)) := by
      intro j hj
      have hjn : n ≤ 31 := by omega
      rw [Nat.testBit_mod_two_pow, Nat.testBit_shiftLeft]
      have e1 : decide (31 - j < 32) = true := by
        simp only [decide_eq_true_eq]
        omega
      have e2 : decide (31 - j ≥ 1) = true := by
        simp only [ge_iff_le, decide_eq_true_eq]
        omega
      simp only [e1, e2, Bool.true_and]
      have e3 : 31 - j - 1 = 31 - (j + 1) := by omega
      rw [e3]
    by_cases hc : pit + 1 = MAX_PULSES
    · have hstep : fillStep oneW zeroW ⟨pix, pit, pit, out⟩ =
          ⟨pix <<< 1 % 2 ^ 32, 0, 0,
            out ++ [(pit, if pix.testBit 31 then oneW else zeroW)]⟩ := by
        unfold fillStep
        dsimp only
        rw [if_pos hc]
      have hpit : pit = 63 := by
        have : MAX_PULSES = 64 := rfl
        omega
      rw [hstep, ih ⟨pix <<< 1 % 2 ^ 32, 0, 0,
            out ++ [(pit, if pix.testBit 31 then oneW else zeroW)]⟩
          hpix1 (by norm_num [MAX_PULSES]) rfl (by omega)]
      dsimp only
      have f1 : (pix <<< 1 % 2 ^ 32) <<< n % 2 ^ 32 = pix <<< (n + 1) % 2 ^ 32 := by
        rw [shl_mod_shl, shl_shl_succ]
      have f2 : (0 + n) % MAX_PULSES = (pit + (n + 1)) % MAX_PULSES := by
        simp only [show MAX_PULSES = 64 from rfl]
        omega
      rw [f1, f2]
      congr 1
      rw [List.append_assoc, List.singleton_append, List.range_succ_eq_map,
        List.map_cons, List.map_map]
      refine congrArg _ (congr_arg₂ List.cons ?_ ?_)
      · have e0 : (pit + 0) % MAX_PULSES = pit := by
          rw [Nat.add_zero, Nat.mod_eq_of_lt hcur]
        rw [e0]
      · refine List.map_congr_left fun j hj => ?_
        have hjn : j < n := List.mem_range.mp hj
        simp only [Function.comp_apply, Nat.succ_eq_add_one]
        have g1 : (0 + j) % MAX_PULSES = (pit + (j + 1)) % MAX_PULSES := by
          simp only [show MAX_PULSES = 64 from rfl]
          omega
        rw [g1, hbit j hjn]
    · have hstep : fillStep oneW zeroW ⟨pix, pit, pit, out⟩ =
          ⟨pix <<< 1 % 2 ^ 32, pit + 1, pit + 1,
            out ++ [(pit, if pix.testBit 31 then oneW else zeroW)]⟩ := by
        unfold fillStep
        dsimp only
        rw [if_neg hc]
      have hcur1 : pit + 1 < MAX_PULSES := by omega
      rw [hstep, ih ⟨pix <<< 1 % 2 ^ 32, pit + 1, pit + 1,
            out ++ [(pit, if pix.testBit 31 then oneW else zeroW)]⟩
          hpix1 hcur1 rfl (by omega)]
      dsimp only
      have f1 : (pix <<< 1 % 2 ^ 32) <<< n % 2 ^ 32 = pix <<< (n + 1) % 2 ^ 32 := by
        rw [shl_mod_shl, shl_shl_succ]
      have f2 : (pit + 1 + n) % MAX_PULSES = (pit + (n + 1)) % MAX_PULSES := by
        congr 1
        omega
      rw [f1, f2]
      congr 1
      rw [List.append_assoc, List.singleton_append, List.range_succ_eq_map,
        List.map_cons, List.map_map]
      refine congrArg _ (congr_arg₂ List.cons ?_ ?_)
      · have e0 : (pit + 0) % MAX_PULSES = pit := by
          rw [Nat.add_zero, Nat.mod_eq_of_lt hcur]
        rw [e0]
      · refine List.map_congr_left fun j hj => ?_
        have hjn : j < n := List.mem_range.mp hj
        simp only [Function.comp_apply, Nat.succ_eq_add_one]
        have g1 : (pit + 1 + j) % MAX_PULSES = (pit + (j + 1)) % MAX_PULSES := by
          congr 1
          omega
        rw [g1, hbit j hjn]

/-- Bit `31 - j` of the packed word `byte0 << 24 | byte1 << 16 | byte2 << 8`
is exactly the MSB-first bit `j` of the three bytes in order. -/
lemma packed_testBit (b0 b1 b2 j : Nat) (h0 : b0 < 256) (h1 : b1 < 256)
    (h2 : b2 < 256) (hj : j < 24) :
    (b0 <<< 24 ||| b1 <<< 16 ||| b2 <<< 8).testBit (31 - j) = pixelBit b0 b1 b2 j := by
  have hb : ∀ b i : Nat, b < 256 → 8 ≤ i → b.testBit i = false := by
    intro b i hbb hi
    apply Nat.testBit_eq_false_of_lt
    calc b < 256 := hbb
      _ = 2 ^ 8 := rfl
      _ ≤ 2 ^ i := Nat.pow_le_pow_right (by norm_num) hi
  rw [Nat.testBit_or, Nat.testBit_or, Nat.testBit_shiftLeft, Nat.testBit_shiftLeft,
    Nat.testBit_shiftLeft]
  by_cases hj8 : j < 8
  · have d24 : decide (31 - j ≥ 24) = true := by
      simp only [ge_iff_le, decide_eq_true_eq]; omega
    have d16 : decide (31 - j ≥ 16) = true := by
      simp only [ge_iff_le, decide_eq_true_eq]; omega
    have d8 : decide (31 - j ≥ 8) = true := by
      simp only [ge_iff_le, decide_eq_true_eq]; omega
    rw [d24, d16, d8]
    simp only [Bool.true_and]
    rw [hb b1 _ h1 (by omega), hb b2 _ h2 (by omega)]
    simp only [Bool.or_false]
    unfold pixelBit
    rw [if_pos hj8]
    congr 1
    omega
  · by_cases hj16 : j < 16
    · have d24 : decide (31 - j ≥ 24) = false := by
        simp only [ge_iff_le, decide_eq_false_iff_not]; omega
      have d16 : decide (31 - j ≥ 16) = true := by
        simp only [ge_iff_le, decide_eq_true_eq]; omega
      have d8 : decide (31 - j ≥ 8) = true := by
        simp only [ge_iff_le, decide_eq_true_eq]; omega
      rw [d24, d16, d8]
      simp only [Bool.true_and, Bool.false_and, Bool.false_or]
      rw [hb b2 _ h2 (by omega)]
      simp only [Bool.or_false]
      unfold pixelBit
      rw [if_neg hj8, if_pos hj16]
      congr 1
      omega
    · have d24 : decide (31 - j ≥ 24) = false := by
        simp only [ge_iff_le, decide_eq_false_iff_not]; omega
      have d16 : decide (31 - j ≥ 16) = false := by
        simp only [ge_iff_le, decide_eq_false_iff_not]; omega
      have d8 : decide (31 - j ≥ 8) = true := by
        simp only [ge_iff_le, decide_eq_true_eq]; omega
      rw [d24, d16, d8]
      simp only [Bool.true_and, Bool.false_and, Bool.false_or]
      unfold pixelBit
      rw [if_neg hj8, if_neg hj16]
      congr 1
      omega

/-! ### Claim C4 -/

/-- C4: a `fillNext` invocation with at least one remaining pixel writes
exactly 24 slots — the three color bytes, 8 bits each, MSB-first per
byte, each slot holding the precomputed one-descriptor or
zero-descriptor word — the cursor `mCurPulse` advances by 24 with
wraparound at `MAX_PULSES = 64`, and afterwards the cursor lies in
`[0, MAX_PULSES)`. -/
theorem c4_refill_writes_one_pixel (c : CtrlState) (b0 b1 b2 : Nat)
    (rest : List (Nat × Nat × Nat)) (hpix : c.pixels = (b0, b1, b2) :: rest)
    (h0 : b0 < 256) (h1 : b1 < 256) (h2 : b2 < 256)
    (hcur : c.curPulse < MAX_PULSES) (hsync : c.memOff = c.curPulse) :
    (fillNext c).writes = c.writes ++ (List.range 24).map
      (fun j => ((c.curPulse + j) % MAX_PULSES,
                 if pixelBit b0 b1 b2 j then c.mOne.word else c.mZero.word)) ∧
    ((fillNext c).writes).length = c.writes.length + 24 ∧
    (fillNext c).curPulse = (c.curPulse + 24) % MAX_PULSES ∧
    (fillNext c).curPulse < MAX_PULSES ∧
    (fillNext c).memOff = (fillNext c).curPulse ∧
    (fillNext c).pixels = rest := by
  have hp32 : (b0 <<< 24 ||| b1 <<< 16 ||| b2 <<< 8) < 2 ^ 32 := by
    have e0 : b0 <<< 24 < 2 ^ 32 := by
      rw [Nat.shiftLeft_eq]
      calc b0 * 2 ^ 24 < 256 * 2 ^ 24 := by
            exact (Nat.mul_lt_mul_right (by norm_num)).mpr h0
        _ = 2 ^ 32 := by norm_num
    have e1 : b1 <<< 16 < 2 ^ 32 := by
      rw [Nat.shiftLeft_eq]
      calc b1 * 2 ^ 16 < 256 * 2 ^ 16 := by
            exact (Nat.mul_lt_mul_right (by norm_num)).mpr h1
        _ ≤ 2 ^ 32 := by norm_num
    have e2 : b2 <<< 8 < 2 ^ 32 := by
      rw [Nat.shiftLeft_eq]
      calc b2 * 2 ^ 8 < 256 * 2 ^ 8 := by
            exact (Nat.mul_lt_mul_right (by norm_num)).mpr h2
        _ ≤ 2 ^ 32 := by norm_num
    exact Nat.or_lt_two_pow (Nat.or_lt_two_pow e0 e1) e2
  rw [fillNext_pixel c b0 b1 b2 rest hpix,
    fillRun_spec c.mOne.word c.mZero.word 24
      ⟨b0 <<< 24 ||| b1 <<< 16 ||| b2 <<< 8, c.memOff, c.curPulse, []⟩
      hp32 hcur hsync (by norm_num)]
  dsimp only
  have hw : (List.range 24).map
        (fun j => ((c.curPulse + j) % MAX_PULSES,
          if (b0 <<< 24 ||| b1 <<< 16 ||| b2 <<< 8).testBit (31 - j)
          then c.mOne.word else c.mZero.word)) =
      (List.range 24).map
        (fun j => ((c.curPulse + j) % MAX_PULSES,
          if pixelBit b0 b1 b2 j then c.mOne.word else c.mZero.word)) := by
    refine List.map_congr_left fun j hj => ?_
    rw [packed_testBit b0 b1 b2 j h0 h1 h2 (List.mem_range.mp hj)]
  refine ⟨?_, ?_, rfl, Nat.mod_lt _ (by norm_num [MAX_PULSES]), rfl, rfl⟩
  · rw [List.nil_append, hw]
  · rw [List.nil_append, hw]
    simp [List.length_append]

theorem c4_refill_writes_one_pixel_witness :
    ((ctrlInit 240000000 10 10 10 [(128, 1, 255)]).pixels = (128, 1, 255) :: [] ∧
      (128 : Nat) < 256 ∧ (1 : Nat) < 256 ∧ (255 : Nat) < 256 ∧
      (ctrlInit 240000000 10 10 10 [(128, 1, 255)]).curPulse < MAX_PULSES ∧
      (ctrlInit 240000000 10 10 10 [(128, 1, 255)]).memOff =
        (ctrlInit 240000000 10 10 10 [(128, 1, 255)]).curPulse) ∧
    ((fillNext (ctrlInit 240000000 10 10 10 [(128, 1, 255)])).writes =
        (ctrlInit 240000000 10 10 10 [(128, 1, 255)]).writes ++ (List.range 24).map
          (fun j => (((ctrlInit 240000000 10 10 10 [(128, 1, 255)]).curPulse + j) % MAX_PULSES,
                     if pixelBit 128 1 255 j
                     then (ctrlInit 240000000 10 10 10 [(128, 1, 255)]).mOne.word
                     else (ctrlInit 240000000 10 10 10 [(128, 1, 255)]).mZero.word)) ∧
      ((fillNext (ctrlInit 240000000 10 10 10 [(128, 1, 255)])).writes).length =
        (ctrlInit 240000000 10 10 10 [(128, 1, 255)]).writes.length + 24 ∧
      (fillNext (ctrlInit 240000000 10 10 10 [(128, 1, 255)])).curPulse =
        ((ctrlInit 240000000 10 10 10 [(128, 1, 255)]).curPulse + 24) % MAX_PULSES ∧
      (fillNext (ctrlInit 240000000 10 10 10 [(128, 1, 255)])).curPulse < MAX_PULSES ∧
      (fillNext (ctrlInit 240000000 10 10 10 [(128, 1, 255)])).memOff =
        (fillNext (ctrlInit 240000000 10 10 10 [(128, 1, 255)])).curPulse ∧
      (fillNext (ctrlInit 240000000 10 10 10 [(128, 1, 255)])).pixels = []) :=
  ⟨⟨by decide, by decide, by decide, by decide, by decide, by decide⟩,
    c4_refill_writes_one_pixel (ctrlInit 240000000 10 10 10 [(128, 1, 255)])
      128 1 255 [] (by decide) (by decide) (by decide) (by decide) (by decide) (by decide)⟩

/-! ### Claim C5 -/

/-- C5: when the pixel source is exhausted, one `fillNext` invocation
writes exactly 8 consecutive zero-valued slots and nothing else;
repeated invocations keep writing only zeros, never advance the slot
cursor `mCurPulse` at all (in particular not past the 8-slot terminator
length), and never pull bytes from the pixel source. -/
theorem c5_terminator_idempotent (c : CtrlState) (h : c.pixels = []) (k : Nat) :
    (fillNext c).writes = c.writes ++ (List.range 8).map (fun j => (c.memOff + j, 0)) ∧
    (fillNext c).curPulse = c.curPulse ∧
    (fillNext^[k] c).curPulse = c.curPulse ∧
    (fillNext^[k] c).pixels = [] ∧
    (∀ p ∈ ((fillNext^[k] c).writes).drop c.writes.length, p.2 = 0) := by
  obtain ⟨h1, h2, _h3, h4⟩ := fillNext_iterate_exhausted c h k
  refine ⟨?_, ?_, h2, h1, ?_⟩
  · rw [fillNext_exhausted c h]
  · rw [fillNext_exhausted c h]
  · intro p hp
    rw [h4, List.drop_left] at hp
    simp only [List.mem_map, List.mem_range] at hp
    obtain ⟨j, _, hj⟩ := hp
    rw [← hj]

theorem c5_terminator_idempotent_witness :
    (ctrlInit 240000000 10 10 10 []).pixels = [] ∧
    ((fillNext (ctrlInit 240000000 10 10 10 [])).writes =
        (ctrlInit 240000000 10 10 10 []).writes ++
          (List.range 8).map (fun j => ((ctrlInit 240000000 10 10 10 []).memOff + j, 0)) ∧
      (fillNext (ctrlInit 240000000 10 10 10 [])).curPulse =
        (ctrlInit 240000000 10 10 10 []).curPulse ∧
      (fillNext^[3] (ctrlInit 240000000 10 10 10 [])).curPulse =
        (ctrlInit 240000000 10 10 10 []).curPulse ∧
      (fillNext^[3] (ctrlInit 240000000 10 10 10 [])).pixels = [] ∧
      (∀ p ∈ ((fillNext^[3] (ctrlInit 240000000 10 10 10 [])).writes).drop
          (ctrlInit 240000000 10 10 10 []).writes.length, p.2 = 0)) :=
  ⟨by decide, c5_terminator_idempotent (ctrlInit 240000000 10 10 10 []) (by decide) 3⟩

/-! ### Claim C10 -/

/-- C10: in the exhausted-source branch the 8 terminator zeros are
written through the raw pointer `mRMT_mem_ptr`, which advances by
exactly 8 slots per invocation with no wraparound check against
`MAX_PULSES`, while `mCurPulse` is left unchanged; each further
invocation therefore writes its zeros 8 slots beyond the previous ones,
and once the pointer has passed `MAX_PULSES` every further write lands
at an offset at or beyond the buffer capacity. -/
theorem c10_terminator_pointer_unbounded (c : CtrlState) (h : c.pixels = []) (k : Nat) :
    (fillNext^[k] c).memOff = c.memOff + 8 * k ∧
    (fillNext^[k] c).curPulse = c.curPulse ∧
    (fillNext^[k + 1] c).writes =
      (fillNext^[k] c).writes ++
        (List.range 8).map (fun j => (c.memOff + 8 * k + j, 0)) ∧
    (MAX_PULSES ≤ c.memOff + 8 * k →
      ∀ p ∈ (List.range 8).map (fun j => (c.memOff + 8 * k + j, 0)),
        MAX_PULSES ≤ p.1) := by
  obtain ⟨h1, h2, h3, _⟩ := fillNext_iterate_exhausted c h k
  refine ⟨h3, h2, ?_, ?_⟩
  · rw [Function.iterate_succ_apply', fillNext_exhausted _ h1, h3]
  · intro hcap p hp
    simp only [List.mem_map, List.mem_range] at hp
    obtain ⟨j, _, hj⟩ := hp
    rw [← hj]
    show MAX_PULSES ≤ c.memOff + 8 * k + j
    omega

theorem c10_terminator_pointer_unbounded_witness :
    (ctrlInit 240000000 10 10 10 []).pixels = [] ∧
    ((fillNext^[8] (ctrlInit 240000000 10 10 10 [])).memOff =
        (ctrlInit 240000000 10 10 10 []).memOff + 8 * 8 ∧
      (fillNext^[8] (ctrlInit 240000000 10 10 10 [])).curPulse =
        (ctrlInit 240000000 10 10 10 []).curPulse ∧
      (fillNext^[8 + 1] (ctrlInit 240000000 10 10 10 [])).writes =
        (fillNext^[8] (ctrlInit 240000000 10 10 10 [])).writes ++
          (List.range 8).map
            (fun j => ((ctrlInit 240000000 10 10 10 []).memOff + 8 * 8 + j, 0)) ∧
      (MAX_PULSES ≤ (ctrlInit 240000000 10 10 10 []).memOff + 8 * 8 →
        ∀ p ∈ (List.range 8).map
            (fun j => ((ctrlInit 240000000 10 10 10 []).memOff + 8 * 8 + j, 0)),
          MAX_PULSES ≤ p.1)) :=
  ⟨by decide, c10_terminator_pointer_unbounded (ctrlInit 240000000 10 10 10 []) (by decide) 8⟩

/-! ### Claim C8 -/

/-- C8 (code bug): the registration step of `init` has no capacity
check and no error path: after 33 registrations with the default
capacity `FASTLED_RMT_MAX_CONTROLLERS = 32`, the counter stands at 33,
the write log shows a write at index 32 — one slot past the end of
`gControllers` — and the slot map was modified there, with no failure
reported to any caller. -/
theorem c8_registration_overflows_capacity :
    (registerMany 33).numControllers = 33 ∧
    FASTLED_RMT_MAX_CONTROLLERS < (registerMany 33).numControllers ∧
    FASTLED_RMT_MAX_CONTROLLERS ∈ (registerMany 33).writeLog ∧
    (registerMany 33).slots FASTLED_RMT_MAX_CONTROLLERS = some 32 := by
  decide

/-! ### Claim C9 -/

/-- C9: the waveform encoder derives exactly two pulse descriptors from
`T1, T2, T3`: logic-one is (high `T1+T2`, low `T3`) and logic-zero is
(high `T1`, low `T2+T3`), each duration converted to RMT device units by
truncating integer division with the divider-derived conversion factor
and stored through the 15-bit `rmt_item32_t` duration bitfields; for
durations that fit in 15 bits (the hypotheses) the stored fields equal
the truncated quotients, characterized by the division inequalities; the
descriptors are fixed at construction and are never changed by the
refill engine. -/
theorem c9_waveform_encoder (fcpu T1 T2 T3 : Nat) (pixels : List (Nat × Nat × Nat))
    (hd : 0 < RMT_CYCLES_PER_ESP_CYCLE fcpu)
    (hf1 : (T1 + T2) / RMT_CYCLES_PER_ESP_CYCLE fcpu < 2 ^ 15)
    (hf2 : T3 / RMT_CYCLES_PER_ESP_CYCLE fcpu < 2 ^ 15)
    (hf3 : T1 / RMT_CYCLES_PER_ESP_CYCLE fcpu < 2 ^ 15)
    (hf4 : (T2 + T3) / RMT_CYCLES_PER_ESP_CYCLE fcpu < 2 ^ 15) :
    (ctrlInit fcpu T1 T2 T3 pixels).mOne.level0 = 1 ∧
    (ctrlInit fcpu T1 T2 T3 pixels).mOne.level1 = 0 ∧
    (ctrlInit fcpu T1 T2 T3 pixels).mZero.level0 = 1 ∧
    (ctrlInit fcpu T1 T2 T3 pixels).mZero.level1 = 0 ∧
    (ctrlInit fcpu T1 T2 T3 pixels).mOne.duration0 =
      (T1 + T2) / RMT_CYCLES_PER_ESP_CYCLE fcpu % 2 ^ 15 ∧
    (ctrlInit fcpu T1 T2 T3 pixels).mOne.duration0 =
      (T1 + T2) / RMT_CYCLES_PER_ESP_CYCLE fcpu ∧
    (ctrlInit fcpu T1 T2 T3 pixels).mOne.duration1 =
      T3 / RMT_CYCLES_PER_ESP_CYCLE fcpu ∧
    (ctrlInit fcpu T1 T2 T3 pixels).mZero.duration0 =
      T1 / RMT_CYCLES_PER_ESP_CYCLE fcpu ∧
    (ctrlInit fcpu T1 T2 T3 pixels).mZero.duration1 =
      (T2 + T3) / RMT_CYCLES_PER_ESP_CYCLE fcpu ∧
    ((ctrlInit fcpu T1 T2 T3 pixels).mOne.duration0 * RMT_CYCLES_PER_ESP_CYCLE fcpu ≤ T1 + T2 ∧
      T1 + T2 <
        ((ctrlInit fcpu T1 T2 T3 pixels).mOne.duration0 + 1) * RMT_CYCLES_PER_ESP_CYCLE fcpu) ∧
    ((ctrlInit fcpu T1 T2 T3 pixels).mZero.duration1 * RMT_CYCLES_PER_ESP_CYCLE fcpu ≤ T2 + T3 ∧
      T2 + T3 <
        ((ctrlInit fcpu T1 T2 T3 pixels).mZero.duration1 + 1) * RMT_CYCLES_PER_ESP_CYCLE fcpu) ∧
    (∀ k, (fillNext^[k] (ctrlInit fcpu T1 T2 T3 pixels)).mOne =
        (ctrlInit fcpu T1 T2 T3 pixels).mOne ∧
      (fillNext^[k] (ctrlInit fcpu T1 T2 T3 pixels)).mZero =
        (ctrlInit fcpu T1 T2 T3 pixels).mZero) := by
  have e1 : (ctrlInit fcpu T1 T2 T3 pixels).mOne.duration0 =
      (T1 + T2) / RMT_CYCLES_PER_ESP_CYCLE fcpu := Nat.mod_eq_of_lt hf1
  have e4 : (ctrlInit fcpu T1 T2 T3 pixels).mZero.duration1 =
      (T2 + T3) / RMT_CYCLES_PER_ESP_CYCLE fcpu := Nat.mod_eq_of_lt hf4
  refine ⟨rfl, rfl, rfl, rfl, rfl, e1, Nat.mod_eq_of_lt hf2, Nat.mod_eq_of_lt hf3, e4,
    ⟨?_, ?_⟩, ⟨?_, ?_⟩, ?_⟩
  · rw [e1]
    exact Nat.div_mul_le_self _ _
  · rw [e1, Nat.succ_mul]
    exact Nat.lt_div_mul_add hd
  · rw [e4]
    exact Nat.div_mul_le_self _ _
  · rw [e4, Nat.succ_mul]
    exact Nat.lt_div_mul_add hd
  · intro k
    induction k with
    | zero => exact ⟨rfl, rfl⟩
    | succ k ih =>
      rw [Function.iterate_succ_apply']
      obtain ⟨e5, e6⟩ := fillNext_preserves_items (fillNext^[k] (ctrlInit fcpu T1 T2 T3 pixels))
      rw [e5, e6]
      exact ih

theorem c9_waveform_encoder_witness :
    (0 < RMT_CYCLES_PER_ESP_CYCLE 240000000 ∧
      (350 + 350) / RMT_CYCLES_PER_ESP_CYCLE 240000000 < 2 ^ 15 ∧
      550 / RMT_CYCLES_PER_ESP_CYCLE 240000000 < 2 ^ 15 ∧
      350 / RMT_CYCLES_PER_ESP_CYCLE 240000000 < 2 ^ 15 ∧
      (350 + 550) / RMT_CYCLES_PER_ESP_CYCLE 240000000 < 2 ^ 15) ∧
    ((ctrlInit 240000000 350 350 550 []).mOne.level0 = 1 ∧
      (ctrlInit 240000000 350 350 550 []).mOne.level1 = 0 ∧
      (ctrlInit 240000000 350 350 550 []).mZero.level0 = 1 ∧
      (ctrlInit 240000000 350 350 550 []).mZero.level1 = 0 ∧
      (ctrlInit 240000000 350 350 550 []).mOne.duration0 =
        (350 + 350) / RMT_CYCLES_PER_ESP_CYCLE 240000000 % 2 ^ 15 ∧
      (ctrlInit 240000000 350 350 550 []).mOne.duration0 =
        (350 + 350) / RMT_CYCLES_PER_ESP_CYCLE 240000000 ∧
      (ctrlInit 240000000 350 350 550 []).mOne.duration1 =
        550 / RMT_CYCLES_PER_ESP_CYCLE 240000000 ∧
      (ctrlInit 240000000 350 350 550 []).mZero.duration0 =
        350 / RMT_CYCLES_PER_ESP_CYCLE 240000000 ∧
      (ctrlInit 240000000 350 350 550 []).mZero.duration1 =
        (350 + 550) / RMT_CYCLES_PER_ESP_CYCLE 240000000 ∧
      ((ctrlInit 240000000 350 350 550 []).mOne.duration0 *
          RMT_CYCLES_PER_ESP_CYCLE 240000000 ≤ 350 + 350 ∧
        350 + 350 <
          ((ctrlInit 240000000 350 350 550 []).mOne.duration0 + 1) *
            RMT_CYCLES_PER_ESP_CYCLE 240000000) ∧
      ((ctrlInit 240000000 350 350 550 []).mZero.duration1 *
          RMT_CYCLES_PER_ESP_CYCLE 240000000 ≤ 350 + 550 ∧
        350 + 550 <
          ((ctrlInit 240000000 350 350 550 []).mZero.duration1 + 1) *
            RMT_CYCLES_PER_ESP_CYCLE 240000000) ∧
      (∀ k, (fillNext^[k] (ctrlInit 240000000 350 350 550 [])).mOne =
          (ctrlInit 240000000 350 350 550 []).mOne ∧
        (fillNext^[k] (ctrlInit 240000000 350 350 550 [])).mZero =
          (ctrlInit 240000000 350 350 550 []).mZero)) :=
  ⟨⟨by decide, by decide, by decide, by decide, by decide⟩,
    c9_waveform_encoder 240000000 350 350 550 []
      (by decide) (by decide) (by decide) (by decide) (by decide)⟩

/-! ### Helper lemmas: scheduler counters and the completion path -/

lemma doneOnChannel_numDone (ch : Nat) (s : SchedState) :
    (doneOnChannel ch s).numDone = s.numDone + 1 := by
  unfold doneOnChannel startNext startOnChannel
  by_cases h1 : s.numDone + 1 = s.numControllers <;>
    by_cases h2 : s.next < s.numControllers <;>
      simp [h1, h2]

lemma doneOnChannel_numControllers (ch : Nat) (s : SchedState) :
    (doneOnChannel ch s).numControllers = s.numControllers := by
  unfold doneOnChannel startNext startOnChannel
  by_cases h1 : s.numDone + 1 = s.numControllers <;>
    by_cases h2 : s.next < s.numControllers <;>
      simp [h1, h2]

lemma doneOnChannel_semGives (ch : Nat) (s : SchedState) :
    (doneOnChannel ch s).semGives =
      s.semGives + (if s.numDone + 1 = s.numControllers then 1 else 0) := by
  unfold doneOnChannel startNext startOnChannel
  by_cases h1 : s.numDone + 1 = s.numControllers <;>
    by_cases h2 : s.next < s.numControllers <;>
      simp [h1, h2]

lemma doneOnChannel_next (ch : Nat) (s : SchedState) :
    (doneOnChannel ch s).next =
      s.next + (if s.numDone + 1 ≠ s.numControllers ∧ s.next < s.numControllers
                then 1 else 0) := by
  unfold doneOnChannel startNext startOnChannel
  by_cases h1 : s.numDone + 1 = s.numControllers <;>
    by_cases h2 : s.next < s.numControllers <;>
      simp [h1, h2]

lemma doneOnChannel_assigns (ch : Nat) (s : SchedState) :
    assignsOf (doneOnChannel ch s).events =
      assignsOf s.events ++
        (if s.numDone + 1 ≠ s.numControllers ∧ s.next < s.numControllers
         then [s.next] else []) := by
  unfold doneOnChannel startNext startOnChannel
  by_cases h1 : s.numDone + 1 = s.numControllers <;>
    by_cases h2 : s.next < s.numControllers <;>
      simp [h1, h2, assignsOf]

lemma runDones_cons (ch : Nat) (l : List Nat) (s : SchedState) :
    runDones (ch :: l) s = runDones l (doneOnChannel ch s) := rfl

lemma runDones_numControllers (l : List Nat) (s : SchedState) :
    (runDones l s).numControllers = s.numControllers := by
  induction l generalizing s with
  | nil => rfl
  | cons ch l ih =>
    rw [runDones_cons, ih, doneOnChannel_numControllers]

lemma runDones_numDone (l : List Nat) (s : SchedState) :
    (runDones l s).numDone = s.numDone + l.length := by
  induction l generalizing s with
  | nil => rfl
  | cons ch l ih =>
    rw [runDones_cons, ih, doneOnChannel_numDone, List.length_cons]
    omega

lemma runDones_semGives (l : List Nat) (s : SchedState) :
    (runDones l s).semGives = s.semGives +
      (if s.numDone < s.numControllers ∧ s.numControllers ≤ s.numDone + l.length
       then 1 else 0) := by
  induction l generalizing s with
  | nil => simp [runDones]
  | cons ch l ih =>
    rw [runDones_cons, ih, doneOnChannel_semGives, doneOnChannel_numDone,
      doneOnChannel_numControllers, List.length_cons]
    split_ifs <;> omega

lemma runDones_next_mono (l : List Nat) (s : SchedState) :
    s.next ≤ (runDones l s).next := by
  induction l generalizing s with
  | nil => exact Nat.le_refl _
  | cons ch l ih =>
    rw [runDones_cons]
    refine Nat.le_trans ?_ (ih (doneOnChannel ch s))
    rw [doneOnChannel_next]
    omega

lemma runDones_next_le (l : List Nat) (s : SchedState)
    (h : s.next ≤ s.numControllers) :
    (runDones l s).next ≤ s.numControllers := by
  induction l generalizing s with
  | nil => exact h
  | cons ch l ih =>
    rw [runDones_cons]
    have h2 : (doneOnChannel ch s).next ≤ (doneOnChannel ch s).numControllers := by
      rw [doneOnChannel_next, doneOnChannel_numControllers]
      split_ifs <;> omega
    have := ih (doneOnChannel ch s) h2
    rwa [doneOnChannel_numControllers] at this

lemma runDones_assigns (l : List Nat) (s : SchedState) :
    assignsOf (runDones l s).events =
      assignsOf s.events ++ List.range' s.next ((runDones l s).next - s.next) := by
  induction l generalizing s with
  | nil => simp [runDones]
  | cons ch l ih =>
    rw [runDones_cons, ih, doneOnChannel_assigns, doneOnChannel_next]
    by_cases hP : s.numDone + 1 ≠ s.numControllers ∧ s.next < s.numControllers
    · rw [if_pos hP, if_pos hP, List.append_assoc]
      have hm : s.next + 1 ≤ (runDones l (doneOnChannel ch s)).next := by
        have := runDones_next_mono l (doneOnChannel ch s)
        rw [doneOnChannel_next, if_pos hP] at this
        exact this
      have hsub : (runDones l (doneOnChannel ch s)).next - s.next =
          ((runDones l (doneOnChannel ch s)).next - (s.next + 1)) + 1 := by omega
      rw [hsub, List.range'_succ, List.singleton_append]
    · rw [if_neg hP, if_neg hP, List.append_nil, Nat.add_zero]

/-! ### Claim C1 -/

/-- C1: over any trace of completion interrupts within a cycle,
`gNumDone` grows by exactly one per completion (so it is monotonically
non-decreasing across any prefix), the cycle semaphore `gTX_sem` is
given exactly once — precisely when `gNumDone` reaches
`gNumControllers`, and not at all if the trace stops short — and the
tail of the blocking `showPixels` call resets `gNumStarted`, `gNumDone`
and `gNext` to zero before the next cycle can begin. -/
theorem c1_done_count_and_barrier (s : SchedState) (l1 l2 : List Nat) :
    (runDones (l1 ++ l2) s).numDone = s.numDone + (l1 ++ l2).length ∧
    (runDones l1 s).numDone ≤ (runDones (l1 ++ l2) s).numDone ∧
    (runDones (l1 ++ l2) s).semGives = s.semGives +
      (if s.numDone < s.numControllers ∧
          s.numControllers ≤ s.numDone + (l1 ++ l2).length
       then 1 else 0) ∧
    (showPixelsFinish (runDones (l1 ++ l2) s)).numStarted = 0 ∧
    (showPixelsFinish (runDones (l1 ++ l2) s)).numDone = 0 ∧
    (showPixelsFinish (runDones (l1 ++ l2) s)).next = 0 := by
  refine ⟨runDones_numDone _ s, ?_, runDones_semGives _ s, rfl, rfl, rfl⟩
  rw [runDones_numDone, runDones_numDone, List.length_append]
  omega

/-! ### Claim C3 -/

/-- C3: within one cycle the pending cursor `gNext` never decreases and
never passes `gNumControllers`; the controllers assigned over a trace of
completion events are exactly the registry indices
`gNext, gNext+1, ...` in strictly ascending registry order, each exactly
once (the assignment log extends by `List.range'` of the cursor
interval); and a channel that frees while work is pending receives
exactly the next pending controller: after `doneOnChannel ch` the
occupant of `ch` is `registry[gNext]` and the cursor advanced by one. -/
theorem c3_fifo_assignment (s : SchedState) (l : List Nat) (ch : Nat)
    (h1 : s.numDone + 1 ≠ s.numControllers) (h2 : s.next < s.numControllers) :
    s.next ≤ (runDones l s).next ∧
    (runDones l s).next ≤ s.numControllers ∧
    assignsOf (runDones l s).events =
      assignsOf s.events ++ List.range' s.next ((runDones l s).next - s.next) ∧
    (doneOnChannel ch s).onChannel ch = some s.next ∧
    (doneOnChannel ch s).next = s.next + 1 := by
  refine ⟨runDones_next_mono l s, runDones_next_le l s (Nat.le_of_lt h2),
    runDones_assigns l s, ?_, ?_⟩
  · unfold doneOnChannel startNext startOnChannel
    simp [h1, h2]
  · rw [doneOnChannel_next, if_pos ⟨h1, h2⟩]

theorem c3_fifo_assignment_witness :
    (((2 : Nat) + 1 ≠ 4) ∧ ((1 : Nat) < 4)) ∧
    (let s : SchedState :=
      { numControllers := 4, numStarted := 4, numDone := 2, next := 1,
        onChannel := fun c => if c = 0 then some 0 else none,
        rmtChannelOf := fun _ => 0, semOpen := false, semGives := 0,
        events := [Ev.assign 0 0] }
     s.next ≤ (runDones [0, 0] s).next ∧
     (runDones [0, 0] s).next ≤ s.numControllers ∧
     assignsOf (runDones [0, 0] s).events =
       assignsOf s.events ++ List.range' s.next ((runDones [0, 0] s).next - s.next) ∧
     (doneOnChannel 0 s).onChannel 0 = some s.next ∧
     (doneOnChannel 0 s).next = s.next + 1) :=
  ⟨⟨by decide, by decide⟩,
    c3_fifo_assignment
      { numControllers := 4, numStarted := 4, numDone := 2, next := 1,
        onChannel := fun c => if c = 0 then some 0 else none,
        rmtChannelOf := fun _ => 0, semOpen := false, semGives := 0,
        events := [Ev.assign 0 0] }
      [0, 0] 0 (by decide) (by decide)⟩

/-! ### Claim C2 -/

/-- C2 is false on the code: with both the threshold bit (24, for
channel 0) and the completion bit (0, for channel 0) set in the status
word read at entry, and channel 0 occupied, the invocation performs only
the refill (clearing only bit 24); no completion handling runs and the
completion bit is not acknowledged. -/
theorem c2_both_bits_counterexample :
    Nat.testBit (BIT 24 ||| BIT 0) 24 = true ∧
    Nat.testBit (BIT 24 ||| BIT 0) 0 = true ∧
    SchedState.onChannel
      { numControllers := 2, numStarted := 2, numDone := 0, next := 1,
        onChannel := fun c => if c = 0 then some 0 else none,
        rmtChannelOf := fun _ => 0, semOpen := false, semGives := 0,
        events := [] } 0 = some 0 ∧
    (interruptHandler (BIT 24 ||| BIT 0)
        { numControllers := 2, numStarted := 2, numDone := 0, next := 1,
          onChannel := fun c => if c = 0 then some 0 else none,
          rmtChannelOf := fun _ => 0, semOpen := false, semGives := 0,
          events := [] }).events =
      [Ev.clearBit 24, Ev.refill 0 0] ∧
    Ev.done 0 ∉ (interruptHandler (BIT 24 ||| BIT 0)
        { numControllers := 2, numStarted := 2, numDone := 0, next := 1,
          onChannel := fun c => if c = 0 then some 0 else none,
          rmtChannelOf := fun _ => 0, semOpen := false, semGives := 0,
          events := [] }).events ∧
    Ev.clearBit 0 ∉ (interruptHandler (BIT 24 ||| BIT 0)
        { numControllers := 2, numStarted := 2, numDone := 0, next := 1,
          onChannel := fun c => if c = 0 then some 0 else none,
          rmtChannelOf := fun _ => 0, semOpen := false, semGives := 0,
          events := [] }).events := by
  decide

/-- C2 amended: when the threshold-refill bit and the completion bit are
both set for an occupied channel, the dispatch for that channel performs
only the refill step and acknowledges only the threshold bit; the
completion bit is not acknowledged and no completion handling runs in
that invocation — it is deferred to a later invocation in which the
threshold bit is clear, where the same dispatch then runs the completion
path. -/
theorem c2_threshold_shadows_completion (intrSt ch ctrl : Nat) (s : SchedState)
    (hocc : s.onChannel ch = some ctrl)
    (hthr : intrSt.testBit (ch + 24) = true)
    (hdone : intrSt.testBit (ch * 3) = true) :
    interruptChannelStep intrSt ch s =
      { s with events := s.events ++ [Ev.clearBit (ch + 24), Ev.refill ch ctrl] } ∧
    (∀ intrSt2 : Nat, intrSt2.testBit (ch + 24) = false →
      intrSt2.testBit (ch * 3) = true →
      interruptChannelStep intrSt2 ch s =
        doneOnChannel ch { s with events := s.events ++ [Ev.clearBit (ch * 3)] }) := by
  constructor
  · unfold interruptChannelStep
    rw [hocc]
    simp [hthr]
  · intro intrSt2 h2thr h2done
    unfold interruptChannelStep
    rw [hocc]
    simp [h2thr, h2done]

theorem c2_threshold_shadows_completion_witness :
    (SchedState.onChannel
        { numControllers := 2, numStarted := 2, numDone := 0, next := 1,
          onChannel := fun c => if c = 0 then some 0 else none,
          rmtChannelOf := fun _ => 0, semOpen := false, semGives := 0,
          events := [] } 0 = some 0 ∧
      Nat.testBit (BIT 24 ||| BIT 0) (0 + 24) = true ∧
      Nat.testBit (BIT 24 ||| BIT 0) (0 * 3) = true) ∧
    (interruptChannelStep (BIT 24 ||| BIT 0) 0
        { numControllers := 2, numStarted := 2, numDone := 0, next := 1,
          onChannel := fun c => if c = 0 then some 0 else none,
          rmtChannelOf := fun _ => 0, semOpen := false, semGives := 0,
          events := [] } =
      { numControllers := 2, numStarted := 2, numDone := 0, next := 1,
        onChannel := fun c => if c = 0 then some 0 else none,
        rmtChannelOf := fun _ => 0, semOpen := false, semGives := 0,
        events := [] ++ [Ev.clearBit (0 + 24), Ev.refill 0 0] } ∧
      (∀ intrSt2 : Nat, intrSt2.testBit (0 + 24) = false →
        intrSt2.testBit (0 * 3) = true →
        interruptChannelStep intrSt2 0
            { numControllers := 2, numStarted := 2, numDone := 0, next := 1,
              onChannel := fun c => if c = 0 then some 0 else none,
              rmtChannelOf := fun _ => 0, semOpen := false, semGives := 0,
              events := [] } =
          doneOnChannel 0
            { numControllers := 2, numStarted := 2, numDone := 0, next := 1,
              onChannel := fun c => if c = 0 then some 0 else none,
              rmtChannelOf := fun _ => 0, semOpen := false, semGives := 0,
              events := [] ++ [Ev.clearBit (0 * 3)] })) :=
  ⟨⟨by decide, by decide, by decide⟩,
    c2_threshold_shadows_completion (BIT 24 ||| BIT 0) 0 0
      { numControllers := 2, numStarted := 2, numDone := 0, next := 1,
        onChannel := fun c => if c = 0 then some 0 else none,
        rmtChannelOf := fun _ => 0, semOpen := false, semGives := 0,
        events := [] }
      (by decide) (by decide) (by decide)⟩

/-! ### Claim C6 -/

/-- C6 is partly false on the code: for a channel with no occupant the
dispatcher does drop any pending bits without refill, completion
handling or error — but it does not acknowledge (clear) them: with the
completion bit of unoccupied channel 0 set, the handler performs no
action at all (no `clearBit`, no event of any kind). -/
theorem c6_no_occupant_counterexample :
    Nat.testBit (BIT 0) 0 = true ∧
    SchedState.onChannel
      { numControllers := 1, numStarted := 0, numDone := 0, next := 0,
        onChannel := fun _ => none,
        rmtChannelOf := fun _ => 0, semOpen := true, semGives := 0,
        events := [] } 0 = none ∧
    (interruptHandler (BIT 0)
        { numControllers := 1, numStarted := 0, numDone := 0, next := 0,
          onChannel := fun _ => none,
          rmtChannelOf := fun _ => 0, semOpen := true, semGives := 0,
          events := [] }).events = [] := by
  decide

/-- C6 amended: for every channel whose occupant slot is empty, the
dispatch loop body skips the channel entirely: any pending bits for it
are dropped without invoking refill or completion handling and without
treating the condition as an error, but they are not acknowledged
(cleared) in that invocation — the state, including the acknowledge log,
is completely unchanged. -/
theorem c6_no_occupant_skipped (intrSt ch : Nat) (s : SchedState)
    (hocc : s.onChannel ch = none) :
    interruptChannelStep intrSt ch s = s := by
  unfold interruptChannelStep
  rw [hocc]

theorem c6_no_occupant_skipped_witness :
    SchedState.onChannel
      { numControllers := 1, numStarted := 0, numDone := 0, next := 0,
        onChannel := fun _ => none,
        rmtChannelOf := fun _ => 0, semOpen := true, semGives := 0,
        events := [] } 3 = none ∧
    interruptChannelStep (BIT 25 ||| BIT 9) 3
        { numControllers := 1, numStarted := 0, numDone := 0, next := 0,
          onChannel := fun _ => none,
          rmtChannelOf := fun _ => 0, semOpen := true, semGives := 0,
          events := [] } =
      { numControllers := 1, numStarted := 0, numDone := 0, next := 0,
        onChannel := fun _ => none,
        rmtChannelOf := fun _ => 0, semOpen := true, semGives := 0,
        events := [] } :=
  ⟨by decide,
    c6_no_occupant_skipped (BIT 25 ||| BIT 9) 3
      { numControllers := 1, numStarted := 0, numDone := 0, next := 0,
        onChannel := fun _ => none,
        rmtChannelOf := fun _ => 0, semOpen := true, semGives := 0,
        events := [] }
      (by decide)⟩

/-! ### Helper lemmas: the cycle-start fill loop -/

lemma startNext_pending (ch : Nat) (s : SchedState) (h : s.next < s.numControllers) :
    startNext ch s =
      { s with
        rmtChannelOf := fun c => if c = s.next then ch else s.rmtChannelOf c,
        onChannel := fun c => if c = ch then some s.next else s.onChannel c,
        events := s.events ++ [Ev.assign ch s.next, Ev.primeFill s.next, Ev.primeFill s.next],
        next := s.next + 1 } := by
  unfold startNext startOnChannel
  rw [if_pos h]

lemma fillEvents_eq_range' (m : Nat) :
    fillEvents m = ((List.range' 0 m).map primeEvents).flatten := by
  rw [fillEvents, List.range_eq_range']

/-- Full characterization of the `showPixels` channel-fill loop when the
local `channel` counter and `gNext` are in step: it binds controllers
`ch, ch+1, ...` to channels `ch, ch+1, ...` until either all
`FASTLED_RMT_MAX_CHANNELS` channels are used or all controllers are
assigned, i.e. up to `max ch (min FASTLED_RMT_MAX_CHANNELS
gNumControllers)`. -/
lemma fillLoop_spec (fuel : Nat) :
    ∀ (ch : Nat) (s : SchedState), s.next = ch →
      fuel + ch = FASTLED_RMT_MAX_CHANNELS →
      (fillLoop fuel ch s).2 =
        max ch (min FASTLED_RMT_MAX_CHANNELS s.numControllers) ∧
      (fillLoop fuel ch s).1.next =
        max ch (min FASTLED_RMT_MAX_CHANNELS s.numControllers) ∧
      (fillLoop fuel ch s).1.numControllers = s.numControllers ∧
      (fillLoop fuel ch s).1.numStarted = s.numStarted ∧
      (fillLoop fuel ch s).1.events = s.events ++
        ((List.range' ch
            (max ch (min FASTLED_RMT_MAX_CHANNELS s.numControllers) - ch)).map
          primeEvents).flatten ∧
      (∀ i, ch ≤ i →
        i < max ch (min FASTLED_RMT_MAX_CHANNELS s.numControllers) →
        (fillLoop fuel ch s).1.rmtChannelOf i = i) ∧
      (∀ i, i < ch → (fillLoop fuel ch s).1.rmtChannelOf i = s.rmtChannelOf i) := by
  have hM : FASTLED_RMT_MAX_CHANNELS = 8 := rfl
  induction fuel with
  | zero =>
    intro ch s hsync hfuel
    have hm : max ch (min FASTLED_RMT_MAX_CHANNELS s.numControllers) = ch := by
      rw [hM] at hfuel ⊢
      omega
    rw [hm]
    refine ⟨rfl, hsync, rfl, rfl, by simp [fillLoop, Nat.sub_self], ?_, fun i _ => rfl⟩
    intro i h1 h2
    omega
  | succ fuel ih =>
    intro ch s hsync hfuel
    by_cases hcond : ch < FASTLED_RMT_MAX_CHANNELS ∧ s.next < s.numControllers
    · have hstep : fillLoop (fuel + 1) ch s = fillLoop fuel (ch + 1) (startNext ch s) := by
        show (if ch < FASTLED_RMT_MAX_CHANNELS ∧ s.next < s.numControllers
              then fillLoop fuel (ch + 1) (startNext ch s) else (s, ch)) = _
        rw [if_pos hcond]
      have hlt : s.next < s.numControllers := hcond.2
      have hs' : startNext ch s =
          { s with
            rmtChannelOf := fun c => if c = ch then ch else s.rmtChannelOf c,
            onChannel := fun c => if c = ch then some ch else s.onChannel c,
            events := s.events ++ [Ev.assign ch ch, Ev.primeFill ch, Ev.primeFill ch],
            next := ch + 1 } := by
        rw [startNext_pending ch s hlt, hsync]
      have e_next : (startNext ch s).next = ch + 1 := by rw [hs']
      have e_N : (startNext ch s).numControllers = s.numControllers := by rw [hs']
      have e_started : (startNext ch s).numStarted = s.numStarted := by rw [hs']
      have e_events : (startNext ch s).events = s.events ++ primeEvents ch := by
        rw [hs']
        rfl
      have e_rmt : ∀ i, (startNext ch s).rmtChannelOf i =
          if i = ch then ch else s.rmtChannelOf i := by
        intro i
        rw [hs']
      obtain ⟨i1, i2, i3, i4, i5, i6, i7⟩ :=
        ih (ch + 1) (startNext ch s) e_next (by omega)
      rw [e_N] at i1 i2 i5 i6
      rw [e_N] at i3
      rw [e_started] at i4
      rw [e_events] at i5
      have hmm : max (ch + 1) (min FASTLED_RMT_MAX_CHANNELS s.numControllers) =
          max ch (min FASTLED_RMT_MAX_CHANNELS s.numControllers) := by
        rw [hM] at hcond ⊢
        omega
      rw [hmm] at i1 i2 i5 i6
      refine ⟨by rw [hstep, i1], by rw [hstep, i2], by rw [hstep, i3],
        by rw [hstep, i4], ?_, ?_, ?_⟩
      · rw [hstep, i5, List.append_assoc]
        have hsub : max ch (min FASTLED_RMT_MAX_CHANNELS s.numControllers) - ch =
            (max ch (min FASTLED_RMT_MAX_CHANNELS s.numControllers) - (ch + 1)) + 1 := by
          rw [hM] at hcond ⊢
          omega
        rw [hsub, List.range'_succ, List.map_cons, List.flatten_cons]
      · intro i hle hlt2
        rcases Nat.eq_or_lt_of_le hle with heq | hlt3
        · have h7 := i7 i (by omega)
          rw [hstep, h7, e_rmt, if_pos heq.symm, heq]
        · have h6 := i6 i (by omega) (by omega)
          rw [hstep, h6]
      · intro i hilt
        have h7 := i7 i (by omega)
        rw [hstep, h7, e_rmt, if_neg (by omega)]
    · have hstep : fillLoop (fuel + 1) ch s = (s, ch) := by
        show (if ch < FASTLED_RMT_MAX_CHANNELS ∧ s.next < s.numControllers
              then fillLoop fuel (ch + 1) (startNext ch s) else (s, ch)) = _
        rw [if_neg hcond]
      have hm : max ch (min FASTLED_RMT_MAX_CHANNELS s.numControllers) = ch := by
        rw [hM] at hcond hfuel ⊢
        omega
      rw [hstep, hm]
      refine ⟨rfl, hsync, rfl, rfl, by simp [Nat.sub_self], ?_, fun i _ => rfl⟩
      intro i h1 h2
      omega

lemma showCycleStart_spec (s1 : SchedState) :
    (showCycleStart s1).events = s1.events ++
      (fillEvents (min FASTLED_RMT_MAX_CHANNELS s1.numControllers) ++
        ((List.range (min FASTLED_RMT_MAX_CHANNELS s1.numControllers)).map Ev.txStart ++
          [Ev.semTake])) ∧
    (showCycleStart s1).next = min FASTLED_RMT_MAX_CHANNELS s1.numControllers ∧
    (showCycleStart s1).numStarted = s1.numStarted ∧
    (showCycleStart s1).numControllers = s1.numControllers := by
  obtain ⟨j1, j2, j3, j4, j5, j6, j7⟩ :=
    fillLoop_spec 8 0 { s1 with next := 0 } rfl rfl
  have hN : ({ s1 with next := 0 } : SchedState).numControllers = s1.numControllers := rfl
  have hE : ({ s1 with next := 0 } : SchedState).events = s1.events := rfl
  have hS : ({ s1 with next := 0 } : SchedState).numStarted = s1.numStarted := rfl
  rw [hN] at j1 j2 j3 j5 j6
  rw [hE] at j5
  rw [hS] at j4
  have hmax : max 0 (min FASTLED_RMT_MAX_CHANNELS s1.numControllers) =
      min FASTLED_RMT_MAX_CHANNELS s1.numControllers := Nat.zero_max _
  rw [hmax] at j1 j2 j5 j6
  rw [Nat.sub_zero] at j5
  unfold showCycleStart
  dsimp only
  unfold txStartLoop
  dsimp only
  refine ⟨?_, j2, j4, j3⟩
  rw [j5, j1]
  have hmap : (List.range (min FASTLED_RMT_MAX_CHANNELS s1.numControllers)).map
        (fun i => Ev.txStart
          ((fillLoop 8 0 { s1 with next := 0 }).1.rmtChannelOf i)) =
      (List.range (min FASTLED_RMT_MAX_CHANNELS s1.numControllers)).map Ev.txStart := by
    refine List.map_congr_left fun i hi => ?_
    rw [j6 i (Nat.zero_le i) (List.mem_range.mp hi)]
  rw [hmap, fillEvents_eq_range']
  simp [List.append_assoc]

/-! ### Claim C7 -/

/-- C7: when the last registered controller calls `showPixels`
(`gNumStarted` reaches `gNumControllers`), the cycle start assigns
exactly `min(FASTLED_RMT_MAX_CHANNELS, gNumControllers)` controllers to
channels `0, 1, ...` in ascending order via repeated `startNext`, each
assignment performing exactly two priming `fillNext` invocations before
any hardware start; it then issues `rmt_tx_start` for each filled
channel in ascending channel order, and finally that last caller blocks
on the cycle semaphore (the trailing `semTake`). -/
theorem c7_cycle_start_last_caller (s : SchedState)
    (hLast : s.numStarted + 1 = s.numControllers) :
    (showPixelsStep s).events = s.events ++
      ((if s.numStarted = 0 then [Ev.semTake] else []) ++
        (fillEvents (min FASTLED_RMT_MAX_CHANNELS s.numControllers) ++
          ((List.range (min FASTLED_RMT_MAX_CHANNELS s.numControllers)).map Ev.txStart ++
            [Ev.semTake]))) ∧
    (showPixelsStep s).next = min FASTLED_RMT_MAX_CHANNELS s.numControllers ∧
    (showPixelsStep s).numStarted = s.numControllers := by
  by_cases hz : s.numStarted = 0
  · have e : showPixelsStep s = showCycleStart
        { s with semOpen := false, events := s.events ++ [Ev.semTake],
                 numStarted := s.numStarted + 1 } := by
      unfold showPixelsStep
      dsimp only
      rw [if_pos hz]
      dsimp only
      rw [if_pos hLast]
    obtain ⟨k1, k2, k3, k4⟩ := showCycleStart_spec
      { s with semOpen := false, events := s.events ++ [Ev.semTake],
               numStarted := s.numStarted + 1 }
    rw [e, k1, k2, k3, if_pos hz]
    refine ⟨?_, rfl, hLast⟩
    show (s.events ++ [Ev.semTake]) ++ _ = _
    rw [List.append_assoc]
  · have e : showPixelsStep s = showCycleStart
        { s with numStarted := s.numStarted + 1 } := by
      unfold showPixelsStep
      dsimp only
      rw [if_neg hz]
      rw [if_pos hLast]
    obtain ⟨k1, k2, k3, k4⟩ := showCycleStart_spec
      { s with numStarted := s.numStarted + 1 }
    rw [e, k1, k2, k3, if_neg hz]
    exact ⟨by rw [List.nil_append], rfl, hLast⟩

theorem c7_cycle_start_last_caller_witness :
    ((2 : Nat) + 1 = 3) ∧
    (let s : SchedState :=
      { numControllers := 3, numStarted := 2, numDone := 0, next := 0,
        onChannel := fun _ => none, rmtChannelOf := fun _ => 0,
        semOpen := false, semGives := 0, events := [] }
     (showPixelsStep s).events = s.events ++
       ((if s.numStarted = 0 then [Ev.semTake] else []) ++
         (fillEvents (min FASTLED_RMT_MAX_CHANNELS s.numControllers) ++
           ((List.range (min FASTLED_RMT_MAX_CHANNELS s.numControllers)).map Ev.txStart ++
             [Ev.semTake]))) ∧
     (showPixelsStep s).next = min FASTLED_RMT_MAX_CHANNELS s.numControllers ∧
     (showPixelsStep s).numStarted = s.numControllers) :=
  ⟨by decide,
    c7_cycle_start_last_caller
      { numControllers := 3, numStarted := 2, numDone := 0, next := 0,
        onChannel := fun _ => none, rmtChannelOf := fun _ => 0,
        semOpen := false, semGives := 0, events := [] }
      (by decide)⟩

end FastLEDRMT
